import Mathlib

/-!
Verification development for the expression-DAG core of the Gklee symbolic
execution engine (src/Gklee/include/klee/Expr.h).

The repository ships only the header: class layouts, the Kind enumeration,
the inline accessors (getWidth, getNumKids, getKid, compareContents,
rebuild, alloc) and the construction-time assertions are embedded from the
source.  The out-of-line definitions (the create canonicalizers,
Expr::compare's driver, UpdateList::extend, computeHash) live in the
repository's Expr.cpp, which is not part of the provided sources; those are
modelled from the specification and are marked in their doc comments.

Machine integers are modelled as Nat with explicit reduction modulo 2^w
where the code truncates.  Fatal assertions are modelled as Option-valued
functions returning none.
-/

namespace GkleeExpr

/-- Expr::Width: the type of an expression is simply its width, in bits. -/
abbrev Width := Nat

/-- The Kind enumeration of Expr.h (Expr::Kind), one tag per concrete node
kind.  The macro-generated arithmetic/bitwise and comparison families are
carried by a separate BinKind payload below, as the spec's design notes
direct; KindT still lists every kind so that the C++ enum's numeric values
can be reproduced exactly. -/
inductive KindT where
  | constant
  | notOptimized
  | read
  | select
  | concat
  | extract
  | zext
  | sext
  | add | sub | mul | udiv | sdiv | urem | srem
  | not
  | and | or | xor | shl | lshr | ashr
  | eq | ne | ult | ule | ugt | uge | slt | sle | sgt | sge
deriving DecidableEq, Repr, Fintype

/-- The numeric values of Expr::Kind in the C++ enum (Constant = 0,
NotOptimized = 1, Read = NotOptimized + 2 = 3, ..., LastKind = Sge = 32). -/
def kindNat : KindT → Nat
  | .constant => 0
  | .notOptimized => 1
  | .read => 3
  | .select => 4
  | .concat => 5
  | .extract => 6
  | .zext => 7
  | .sext => 8
  | .add => 9
  | .sub => 10
  | .mul => 11
  | .udiv => 12
  | .sdiv => 13
  | .urem => 14
  | .srem => 15
  | .not => 16
  | .and => 17
  | .or => 18
  | .xor => 19
  | .shl => 20
  | .lshr => 21
  | .ashr => 22
  | .eq => 23
  | .ne => 24
  | .ult => 25
  | .ule => 26
  | .ugt => 27
  | .uge => 28
  | .slt => 29
  | .sle => 30
  | .sgt => 31
  | .sge => 32

theorem kindNat_inj : ∀ a b : KindT, kindNat a = kindNat b → a = b := by decide

/-- The kinds of the macro-generated BinaryExpr subclasses
(ARITHMETIC_EXPR_CLASS and COMPARISON_EXPR_CLASS): every kind in
[BinaryKindFirst, BinaryKindLast] except Not, which is a unary class. -/
inductive BinKind where
  | add | sub | mul | udiv | sdiv | urem | srem
  | and | or | xor | shl | lshr | ashr
  | eq | ne | ult | ule | ugt | uge | slt | sle | sgt | sge
deriving DecidableEq, Repr, Fintype

/-- The Expr::Kind tag of a BinKind. -/
def binKindT : BinKind → KindT
  | .add => .add
  | .sub => .sub
  | .mul => .mul
  | .udiv => .udiv
  | .sdiv => .sdiv
  | .urem => .urem
  | .srem => .srem
  | .and => .and
  | .or => .or
  | .xor => .xor
  | .shl => .shl
  | .lshr => .lshr
  | .ashr => .ashr
  | .eq => .eq
  | .ne => .ne
  | .ult => .ult
  | .ule => .ule
  | .ugt => .ugt
  | .uge => .uge
  | .slt => .slt
  | .sle => .sle
  | .sgt => .sgt
  | .sge => .sge

theorem binKindT_inj : ∀ a b : BinKind, binKindT a = binKindT b → a = b := by decide

/-- CmpExpr::classof: CmpKindFirst (Eq) <= k <= CmpKindLast (Sge). -/
def BinKind.isCmp : BinKind → Bool
  | .eq | .ne | .ult | .ule | .ugt | .uge | .slt | .sle | .sgt | .sge => true
  | _ => false

/-- The commutative/associative arithmetic and bitwise kinds of
canonicalization rule 3 (a constant operand, if any, goes on the left). -/
def BinKind.isCommutative : BinKind → Bool
  | .add | .mul | .and | .or | .xor => true
  | _ => false

@[simp] theorem binKindT_ne_constant (k : BinKind) : binKindT k ≠ KindT.constant := by
  cases k <;> decide

@[simp] theorem binKindT_ne_notOptimized (k : BinKind) : binKindT k ≠ KindT.notOptimized := by
  cases k <;> decide

@[simp] theorem binKindT_ne_read (k : BinKind) : binKindT k ≠ KindT.read := by
  cases k <;> decide

@[simp] theorem binKindT_ne_select (k : BinKind) : binKindT k ≠ KindT.select := by
  cases k <;> decide

@[simp] theorem binKindT_ne_concat (k : BinKind) : binKindT k ≠ KindT.concat := by
  cases k <;> decide

@[simp] theorem binKindT_ne_extract (k : BinKind) : binKindT k ≠ KindT.extract := by
  cases k <;> decide

@[simp] theorem binKindT_ne_zext (k : BinKind) : binKindT k ≠ KindT.zext := by
  cases k <;> decide

@[simp] theorem binKindT_ne_sext (k : BinKind) : binKindT k ≠ KindT.sext := by
  cases k <;> decide

@[simp] theorem binKindT_ne_not (k : BinKind) : binKindT k ≠ KindT.not := by
  cases k <;> decide

@[simp] theorem kindT_constant_ne_binKindT (k : BinKind) : KindT.constant ≠ binKindT k := by
  cases k <;> decide

@[simp] theorem kindT_notOptimized_ne_binKindT (k : BinKind) : KindT.notOptimized ≠ binKindT k := by
  cases k <;> decide

@[simp] theorem kindT_read_ne_binKindT (k : BinKind) : KindT.read ≠ binKindT k := by
  cases k <;> decide

@[simp] theorem kindT_select_ne_binKindT (k : BinKind) : KindT.select ≠ binKindT k := by
  cases k <;> decide

@[simp] theorem kindT_concat_ne_binKindT (k : BinKind) : KindT.concat ≠ binKindT k := by
  cases k <;> decide

@[simp] theorem kindT_extract_ne_binKindT (k : BinKind) : KindT.extract ≠ binKindT k := by
  cases k <;> decide

@[simp] theorem kindT_zext_ne_binKindT (k : BinKind) : KindT.zext ≠ binKindT k := by
  cases k <;> decide

@[simp] theorem kindT_sext_ne_binKindT (k : BinKind) : KindT.sext ≠ binKindT k := by
  cases k <;> decide

@[simp] theorem kindT_not_ne_binKindT (k : BinKind) : KindT.not ≠ binKindT k := by
  cases k <;> decide

/-- klee::Array: a named byte-addressed symbolic or constant memory object.
constantValues is the list of constant initial values, each a ConstantExpr
recorded here as its (width, value) pair; empty for a symbolic array. -/
structure Arr where
  name : String
  size : Nat
  constantValues : List (Width × Nat)
deriving DecidableEq, Repr

/-- Array::isSymbolicArray: constantValues.empty(). -/
def Arr.isSymbolicArray (a : Arr) : Bool := a.constantValues.isEmpty

/-- Array::getDomain: the index width, fixed at Expr::Int32. -/
def Arr.getDomain (_ : Arr) : Width := 32

/-- Array::getRange: the element width, fixed at Expr::Int8. -/
def Arr.getRange (_ : Arr) : Width := 8

/-- Array::Array with its construction-time assertions:
assert(isSymbolicArray() || constantValues.size() == size), and (the
NDEBUG-guarded loop) assert((*it)->getWidth() == getRange()) for every
constant initial value.  A failed assertion aborts; that fatal outcome is
modelled as none. -/
def Arr.make (name : String) (size : Nat) (constantValues : List (Width × Nat)) : Option Arr :=
  if (constantValues.isEmpty || constantValues.length == size)
      && constantValues.all (fun wv => wv.1 == 8) then
    some ⟨name, size, constantValues⟩
  else
    none

mutual
/-- The expression DAG of Expr.h, one constructor per concrete node class:
ConstantExpr (an APInt value of a given bit width, the value already
truncated to the width), NotOptimizedExpr, ReadExpr (its UpdateList
flattened into the root Array and the head update chain, plus the index
kid), SelectExpr, ConcatExpr, ExtractExpr, the CastExpr subclasses ZExt
and SExt (stored target width), NotExpr, and the macro-generated
BinaryExpr subclasses carried by a BinKind tag. -/
inductive Expr where
  | Const (width : Width) (value : Nat)
  | NotOptimized (src : Expr)
  | Read (root : Arr) (head : UpdateChain) (index : Expr)
  | Select (cond : Expr) (trueExpr : Expr) (falseExpr : Expr)
  | Concat (left : Expr) (right : Expr)
  | Extract (expr : Expr) (offset : Nat) (width : Width)
  | ZExt (src : Expr) (width : Width)
  | SExt (src : Expr) (width : Width)
  | Not (expr : Expr)
  | Binary (k : BinKind) (left : Expr) (right : Expr)
/-- The UpdateNode chain of Expr.h: each node carries a symbolic byte
write (index, value) and the pointer to the previous head; nil models the
null pointer that ends every chain. -/
inductive UpdateChain where
  | nil
  | node (index : Expr) (value : Expr) (next : UpdateChain)
end

deriving instance DecidableEq for Expr
deriving instance DecidableEq for UpdateChain

/-- Expr::getKind, the concrete kind tag of each node class. -/
def Expr.getKind : Expr → KindT
  | .Const _ _ => .constant
  | .NotOptimized _ => .notOptimized
  | .Read _ _ _ => .read
  | .Select _ _ _ => .select
  | .Concat _ _ => .concat
  | .Extract _ _ _ => .extract
  | .ZExt _ _ => .zext
  | .SExt _ _ => .sext
  | .Not _ => .not
  | .Binary k _ _ => binKindT k

/-- ConstantExpr::classof: getKind() == Expr::Constant. -/
def Expr.isConstant : Expr → Bool
  | .Const _ _ => true
  | _ => false

/-- Expr::getWidth per class: ConstantExpr returns the APInt bit width;
NotOptimizedExpr and NotExpr return the child's width; ReadExpr returns
Expr::Int8; SelectExpr the width of the true branch; ConcatExpr stores
left->getWidth() + right->getWidth() at construction; ExtractExpr and the
CastExpr subclasses return the stored width; CmpExpr returns Expr::Bool
(1) and the arithmetic BinaryExpr classes return left->getWidth(). -/
def Expr.getWidth : Expr → Width
  | .Const w _ => w
  | .NotOptimized s => s.getWidth
  | .Read _ _ _ => 8
  | .Select _ t _ => t.getWidth
  | .Concat l r => l.getWidth + r.getWidth
  | .Extract _ _ w => w
  | .ZExt _ w => w
  | .SExt _ w => w
  | .Not e => e.getWidth
  | .Binary k l _ => if k.isCmp then 1 else l.getWidth

/-- Expr::getNumKids per class. -/
def Expr.getNumKids : Expr → Nat
  | .Const _ _ => 0
  | .NotOptimized _ => 1
  | .Read _ _ _ => 1
  | .Select _ _ _ => 3
  | .Concat _ _ => 2
  | .Extract _ _ _ => 1
  | .ZExt _ _ => 1
  | .SExt _ _ => 1
  | .Not _ => 1
  | .Binary _ _ _ => 2

/-- Expr::getKid per class, exactly as the header defines each override;
the null ref<Expr> returned by some overrides is modelled as none.
ConstantExpr returns 0 for every index; BinaryExpr, SelectExpr,
ConcatExpr, CastExpr and ReadExpr test the index and return 0 out of
range; ExtractExpr, NotExpr and NotOptimizedExpr return their single
child without testing the index at all. -/
def Expr.getKid : Expr → Nat → Option Expr
  | .Const _ _, _ => none
  | .NotOptimized s, _ => some s
  | .Read _ _ index, i => if i = 0 then some index else none
  | .Select c t f, i =>
      match i with
      | 0 => some c
      | 1 => some t
      | 2 => some f
      | _ => none
  | .Concat l r, i =>
      match i with
      | 0 => some l
      | 1 => some r
      | _ => none
  | .Extract e _ _, _ => some e
  | .ZExt s _, i => if i = 0 then some s else none
  | .SExt s _, i => if i = 0 then some s else none
  | .Not e, _ => some e
  | .Binary _ l r, i =>
      match i with
      | 0 => some l
      | 1 => some r
      | _ => none

/-- Sequencing of comparison results: the standard x-then-y chaining every
compareContents override in the header uses (return the first non-zero
result). -/
def chainI (x y : Int) : Int := if x = 0 then y else x

/-- Three-way comparison of two Nats as -1/0/1, the `a < b ? -1 : 1`
idiom of the header's compareContents overrides. -/
def cmpNat (a b : Nat) : Int := if a < b then -1 else if b < a then 1 else 0

/-- Three-way comparison of two strings (array names are std::string). -/
def cmpString (a b : String) : Int := if a = b then 0 else if a < b then -1 else 1

/-- Lexicographic three-way comparison of two constant-value lists, each
element a (width, value) pair. -/
def cmpListWV : List (Width × Nat) → List (Width × Nat) → Int
  | [], [] => 0
  | [], _ :: _ => -1
  | _ :: _, [] => 1
  | (w1, v1) :: t1, (w2, v2) :: t2 =>
      chainI (cmpNat w1 w2) (chainI (cmpNat v1 v2) (cmpListWV t1 t2))

/-- Modelled from the spec: the root-array fallback of UpdateList ordering
(Array's comparison lives in the repository's Expr.cpp, not under src/).
The spec compares two update lists by walking their chains and then falls
back to root-array identity; identity of the immutable Array object is
realised structurally, ordering name, then size, then the constant
values. -/
def compareArr (a b : Arr) : Int :=
  chainI (cmpString a.name b.name)
    (chainI (cmpNat a.size b.size) (cmpListWV a.constantValues b.constantValues))

/-- ConstantExpr::compareContents: by width, then by unsigned value
(APInt::ult). -/
def constCC (w1 v1 w2 v2 : Nat) : Int := chainI (cmpNat w1 w2) (cmpNat v1 v2)

/-- ExtractExpr::compareContents: by offset, then by width. -/
def extractCC (o1 w1 o2 w2 : Nat) : Int := chainI (cmpNat o1 o2) (cmpNat w1 w2)

/-- CastExpr::compareContents: by the stored target width. -/
def castCC (w1 w2 : Width) : Int := cmpNat w1 w2

mutual
/-- Modelled from the spec: the driver of Expr::compare lives in the
repository's Expr.cpp, not under src/.  Per the spec it is a deterministic
total order comparing first by kind, then by width, then by the
kind-specific compareContents, then lexicographically over children by
recursive compare.  The ExprEquivSet memoization of already-compared
pairs only speeds up the walk on shared DAGs and is omitted from the
model. -/
def compareE (a b : Expr) : Int :=
  if kindNat a.getKind < kindNat b.getKind then -1
  else if kindNat b.getKind < kindNat a.getKind then 1
  else chainI (cmpNat a.getWidth b.getWidth) (sameKindCmp a b)
termination_by (sizeOf a, 1)

/-- The contents-then-children comparison of two nodes of the same kind:
the header's compareContents override of the class, then the recursive
child walk.  NotExpr::compareContents already compares the single child
by full compare, so its contents and child comparisons coincide.  Only
pairs of equal kind are ever reached from compareE; the final catch-all
arm is dead code. -/
def sameKindCmp : Expr → Expr → Int
  | .Const w1 v1, .Const w2 v2 => constCC w1 v1 w2 v2
  | .NotOptimized s1, .NotOptimized s2 => compareE s1 s2
  | .Read r1 c1 i1, .Read r2 c2 i2 =>
      chainI (chainI (compareChain c1 c2) (compareArr r1 r2)) (compareE i1 i2)
  | .Select c1 t1 f1, .Select c2 t2 f2 =>
      chainI (compareE c1 c2) (chainI (compareE t1 t2) (compareE f1 f2))
  | .Concat l1 r1, .Concat l2 r2 => chainI (compareE l1 l2) (compareE r1 r2)
  | .Extract e1 o1 w1, .Extract e2 o2 w2 => chainI (extractCC o1 w1 o2 w2) (compareE e1 e2)
  | .ZExt s1 w1, .ZExt s2 w2 => chainI (castCC w1 w2) (compareE s1 s2)
  | .SExt s1 w1, .SExt s2 w2 => chainI (castCC w1 w2) (compareE s1 s2)
  | .Not e1, .Not e2 => compareE e1 e2
  | .Binary _ l1 r1, .Binary _ l2 r2 => chainI (compareE l1 l2) (compareE r1 r2)
  | _, _ => 0
termination_by a _ => (sizeOf a, 0)

/-- Modelled from the spec: UpdateNode::compare lives in the repository's
Expr.cpp, not under src/.  Per the spec, ordering two update histories
walks both chains from their heads comparing (index, value) pairs
pairwise. -/
def compareChain : UpdateChain → UpdateChain → Int
  | .nil, .nil => 0
  | .nil, .node _ _ _ => -1
  | .node _ _ _, .nil => 1
  | .node i1 v1 n1, .node i2 v2 n2 =>
      chainI (compareE i1 i2) (chainI (compareE v1 v2) (compareChain n1 n2))
termination_by x _ => (sizeOf x, 1)
end

theorem chainI_eq_zero_iff {x y : Int} : chainI x y = 0 ↔ x = 0 ∧ y = 0 := by
  unfold chainI; split <;> simp_all

theorem cmpNat_eq_zero_iff {a b : Nat} : cmpNat a b = 0 ↔ a = b := by
  unfold cmpNat
  split_ifs with h1 h2
  · exact iff_of_false (by decide) (by omega)
  · exact iff_of_false (by decide) (by omega)
  · exact iff_of_true rfl (by omega)

theorem cmpString_eq_zero_iff {a b : String} : cmpString a b = 0 ↔ a = b := by
  unfold cmpString
  split_ifs with h1 h2 <;> simp_all

theorem cmpListWV_eq_zero_iff : ∀ x y : List (Width × Nat), cmpListWV x y = 0 ↔ x = y
  | [], [] => by simp [cmpListWV]
  | [], _ :: _ => by simp [cmpListWV]
  | _ :: _, [] => by simp [cmpListWV]
  | (w1, v1) :: t1, (w2, v2) :: t2 => by
      simp [cmpListWV, chainI_eq_zero_iff, cmpNat_eq_zero_iff, cmpListWV_eq_zero_iff t1 t2,
        Prod.ext_iff]
      tauto

theorem compareArr_eq_zero_iff {a b : Arr} : compareArr a b = 0 ↔ a = b := by
  obtain ⟨n1, s1, c1⟩ := a
  obtain ⟨n2, s2, c2⟩ := b
  simp [compareArr, chainI_eq_zero_iff, cmpNat_eq_zero_iff, cmpString_eq_zero_iff,
    cmpListWV_eq_zero_iff, Arr.mk.injEq]

theorem shape_const {b : Expr} (h : b.getKind = KindT.constant) :
    ∃ w v, b = .Const w v := by
  cases b
  case Const w v => exact ⟨w, v, rfl⟩
  all_goals simp_all [Expr.getKind]

theorem shape_notOptimized {b : Expr} (h : b.getKind = KindT.notOptimized) :
    ∃ s, b = .NotOptimized s := by
  cases b
  case NotOptimized s => exact ⟨s, rfl⟩
  all_goals simp_all [Expr.getKind]

theorem shape_read {b : Expr} (h : b.getKind = KindT.read) :
    ∃ r c i, b = .Read r c i := by
  cases b
  case Read r c i => exact ⟨r, c, i, rfl⟩
  all_goals simp_all [Expr.getKind]

theorem shape_select {b : Expr} (h : b.getKind = KindT.select) :
    ∃ c t f, b = .Select c t f := by
  cases b
  case Select c t f => exact ⟨c, t, f, rfl⟩
  all_goals simp_all [Expr.getKind]

theorem shape_concat {b : Expr} (h : b.getKind = KindT.concat) :
    ∃ l r, b = .Concat l r := by
  cases b
  case Concat l r => exact ⟨l, r, rfl⟩
  all_goals simp_all [Expr.getKind]

theorem shape_extract {b : Expr} (h : b.getKind = KindT.extract) :
    ∃ e o w, b = .Extract e o w := by
  cases b
  case Extract e o w => exact ⟨e, o, w, rfl⟩
  all_goals simp_all [Expr.getKind]

theorem shape_zext {b : Expr} (h : b.getKind = KindT.zext) :
    ∃ s w, b = .ZExt s w := by
  cases b
  case ZExt s w => exact ⟨s, w, rfl⟩
  all_goals simp_all [Expr.getKind]

theorem shape_sext {b : Expr} (h : b.getKind = KindT.sext) :
    ∃ s w, b = .SExt s w := by
  cases b
  case SExt s w => exact ⟨s, w, rfl⟩
  all_goals simp_all [Expr.getKind]

theorem shape_not {b : Expr} (h : b.getKind = KindT.not) :
    ∃ e, b = .Not e := by
  cases b
  case Not e => exact ⟨e, rfl⟩
  all_goals simp_all [Expr.getKind]

theorem shape_binary {b : Expr} {k : BinKind} (h : b.getKind = binKindT k) :
    ∃ l r, b = .Binary k l r := by
  cases b
  case Binary k2 l r =>
    simp only [Expr.getKind] at h
    exact ⟨l, r, by rw [binKindT_inj k2 k h]⟩
  all_goals simp_all [Expr.getKind]

theorem compareE_ne_zero_of_kind_ne {a b : Expr} (hk : a.getKind ≠ b.getKind) :
    compareE a b ≠ 0 := by
  have hkn : kindNat a.getKind ≠ kindNat b.getKind := fun hh => hk (kindNat_inj _ _ hh)
  rw [compareE]
  rcases Nat.lt_trichotomy (kindNat a.getKind) (kindNat b.getKind) with hlt | heq | hgt
  · simp [hlt]
  · exact absurd heq hkn
  · simp [hgt, Nat.lt_asymm hgt]

theorem compareE_of_kind_eq {a b : Expr} (hk : a.getKind = b.getKind) :
    compareE a b = chainI (cmpNat a.getWidth b.getWidth) (sameKindCmp a b) := by
  rw [compareE, hk]
  simp

mutual
/-- compare returns 0 exactly on structural equality (helper for C3,
proved by mutual structural induction with compareChain). -/
theorem compareE_eq_zero_iff (a b : Expr) : compareE a b = 0 ↔ a = b := by
  by_cases hk : a.getKind = b.getKind
  · rw [compareE_of_kind_eq hk, chainI_eq_zero_iff, cmpNat_eq_zero_iff]
    cases a with
    | Const w1 v1 =>
      obtain ⟨w2, v2, rfl⟩ := shape_const (by rw [← hk]; rfl)
      simp only [Expr.getWidth, sameKindCmp, constCC, chainI_eq_zero_iff, cmpNat_eq_zero_iff,
        Expr.Const.injEq]
      tauto
    | NotOptimized s1 =>
      obtain ⟨s2, rfl⟩ := shape_notOptimized (by rw [← hk]; rfl)
      have ih := compareE_eq_zero_iff s1 s2
      simp only [Expr.getWidth, sameKindCmp, ih, Expr.NotOptimized.injEq]
      exact ⟨fun h => h.2, fun h => ⟨by rw [h], h⟩⟩
    | Read r1 c1 i1 =>
      obtain ⟨r2, c2, i2, rfl⟩ := shape_read (by rw [← hk]; rfl)
      have ihc := compareChain_eq_zero_iff c1 c2
      have ihi := compareE_eq_zero_iff i1 i2
      simp [Expr.getWidth, sameKindCmp, chainI_eq_zero_iff, compareArr_eq_zero_iff, ihc, ihi,
        Expr.Read.injEq]
      tauto
    | Select c1 t1 f1 =>
      obtain ⟨c2, t2, f2, rfl⟩ := shape_select (by rw [← hk]; rfl)
      have ih1 := compareE_eq_zero_iff c1 c2
      have ih2 := compareE_eq_zero_iff t1 t2
      have ih3 := compareE_eq_zero_iff f1 f2
      simp only [Expr.getWidth, sameKindCmp, chainI_eq_zero_iff, ih1, ih2, ih3,
        Expr.Select.injEq]
      exact ⟨fun h => h.2, fun h => ⟨by rw [h.2.1], h⟩⟩
    | Concat l1 r1 =>
      obtain ⟨l2, r2, rfl⟩ := shape_concat (by rw [← hk]; rfl)
      have ih1 := compareE_eq_zero_iff l1 l2
      have ih2 := compareE_eq_zero_iff r1 r2
      simp only [Expr.getWidth, sameKindCmp, chainI_eq_zero_iff, ih1, ih2, Expr.Concat.injEq]
      exact ⟨fun h => h.2, fun h => ⟨by rw [h.1, h.2], h⟩⟩
    | Extract e1 o1 w1 =>
      obtain ⟨e2, o2, w2, rfl⟩ := shape_extract (by rw [← hk]; rfl)
      have ih := compareE_eq_zero_iff e1 e2
      simp [Expr.getWidth, sameKindCmp, extractCC, chainI_eq_zero_iff, cmpNat_eq_zero_iff, ih,
        Expr.Extract.injEq]
      tauto
    | ZExt s1 w1 =>
      obtain ⟨s2, w2, rfl⟩ := shape_zext (by rw [← hk]; rfl)
      have ih := compareE_eq_zero_iff s1 s2
      simp [Expr.getWidth, sameKindCmp, castCC, chainI_eq_zero_iff, cmpNat_eq_zero_iff, ih,
        Expr.ZExt.injEq]
      tauto
    | SExt s1 w1 =>
      obtain ⟨s2, w2, rfl⟩ := shape_sext (by rw [← hk]; rfl)
      have ih := compareE_eq_zero_iff s1 s2
      simp [Expr.getWidth, sameKindCmp, castCC, chainI_eq_zero_iff, cmpNat_eq_zero_iff, ih,
        Expr.SExt.injEq]
      tauto
    | Not e1 =>
      obtain ⟨e2, rfl⟩ := shape_not (by rw [← hk]; rfl)
      have ih := compareE_eq_zero_iff e1 e2
      simp only [Expr.getWidth, sameKindCmp, ih, Expr.Not.injEq]
      exact ⟨fun h => h.2, fun h => ⟨by rw [h], h⟩⟩
    | Binary k1 l1 r1 =>
      obtain ⟨l2, r2, rfl⟩ := shape_binary (by rw [← hk]; rfl)
      have ih1 := compareE_eq_zero_iff l1 l2
      have ih2 := compareE_eq_zero_iff r1 r2
      simp [Expr.getWidth, sameKindCmp, chainI_eq_zero_iff, ih1, ih2, Expr.Binary.injEq]
      intro h1 h2
      rw [h1]
  · constructor
    · intro h0
      exact absurd h0 (compareE_ne_zero_of_kind_ne hk)
    · intro he
      exact absurd (congrArg Expr.getKind he) hk
termination_by (sizeOf a, 0)

/-- compareChain returns 0 exactly on structural equality of update
chains (helper for C3). -/
theorem compareChain_eq_zero_iff (x y : UpdateChain) : compareChain x y = 0 ↔ x = y := by
  cases x with
  | nil =>
    cases y with
    | nil => simp [compareChain]
    | node i v n => simp [compareChain]
  | node i1 v1 n1 =>
    cases y with
    | nil => simp [compareChain]
    | node i2 v2 n2 =>
      have ih1 := compareE_eq_zero_iff i1 i2
      have ih2 := compareE_eq_zero_iff v1 v2
      have ih3 := compareChain_eq_zero_iff n1 n2
      simp [compareChain, chainI_eq_zero_iff, ih1, ih2, ih3, UpdateChain.node.injEq]
termination_by (sizeOf x, 0)
end

/-- Modelled from the spec: Array::computeHash lives in the repository's
Expr.cpp, not under src/; a deterministic hash of the array's structure
mixed with the constant 39 modulo 2^32 (unsigned arithmetic). -/
def hashArr (a : Arr) : Nat :=
  ((a.name.foldl (fun h c => (h * 39 + c.toNat) % 2 ^ 32) 0) * 39 + a.size * 39
    + a.constantValues.foldl (fun h wv => (h * 39 + wv.1 * 39 + wv.2) % 2 ^ 32) 0) % 2 ^ 32

mutual
/-- Modelled from the spec: Expr::computeHash and its overrides live in the
repository's Expr.cpp, not under src/.  Per the spec the hash combines the
kind, the width, the kind-specific contents and each child's cached hash
with the fixed odd mixing constant MAGIC_HASH_CONSTANT = 39 (declared in
the header), in unsigned arithmetic (modulo 2^32); it is computed once at
construction and cached, which for immutable nodes coincides with this
pure recomputation. -/
def hashE : Expr → Nat
  | .Const w v => ((kindNat .constant * 39 + w) * 39 + v) % 2 ^ 32
  | .NotOptimized s => ((kindNat .notOptimized * 39 + s.getWidth) * 39 + hashE s) % 2 ^ 32
  | .Read r c i =>
      (((kindNat .read * 39 + 8) * 39 + (hashChain c * 39 + hashArr r)) * 39 + hashE i) % 2 ^ 32
  | .Select c t f =>
      (((kindNat .select * 39 + t.getWidth) * 39 + hashE c) * 39 + hashE t * 39 + hashE f) % 2 ^ 32
  | .Concat l r =>
      (((kindNat .concat * 39 + (l.getWidth + r.getWidth)) * 39 + hashE l) * 39 + hashE r) % 2 ^ 32
  | .Extract e o w => (((kindNat .extract * 39 + w) * 39 + (o * 39 + w)) * 39 + hashE e) % 2 ^ 32
  | .ZExt s w => ((kindNat .zext * 39 + w) * 39 + hashE s) % 2 ^ 32
  | .SExt s w => ((kindNat .sext * 39 + w) * 39 + hashE s) % 2 ^ 32
  | .Not e => ((kindNat .not * 39 + e.getWidth) * 39 + hashE e) % 2 ^ 32
  | .Binary k l r =>
      (((kindNat (binKindT k) * 39 + (if k.isCmp then 1 else l.getWidth)) * 39 + hashE l) * 39
        + hashE r) % 2 ^ 32

/-- Modelled from the spec: UpdateNode::computeHash combines the index and
value hashes along the chain with the same mixing constant. -/
def hashChain : UpdateChain → Nat
  | .nil => 0
  | .node i v n => ((hashChain n * 39 + hashE i) * 39 + hashE v) % 2 ^ 32
end

/-- klee::UpdateList: a root Array paired with the pointer to the most
recent update node (null modelled as the nil chain). -/
structure UpdateList where
  root : Arr
  head : UpdateChain
deriving DecidableEq

/-- UpdateNode::getSize: the size of the update sequence including this
node (the constructor sets size = next->size + 1). -/
def UpdateChain.size : UpdateChain → Nat
  | .nil => 0
  | .node _ _ n => n.size + 1

/-- UpdateList::getSize: head ? head->getSize() : 0. -/
def UpdateList.getSize (ul : UpdateList) : Nat := ul.head.size

/-- Modelled from the spec: UpdateList::extend lives in the repository's
Expr.cpp, not under src/.  Per the spec it publishes a new head UpdateNode
recording (index, value) and pointing at the previous head; no previously
published node is mutated, which the persistent model realises by
construction. -/
def UpdateList.extend (ul : UpdateList) (index value : Expr) : UpdateList :=
  ⟨ul.root, .node index value ul.head⟩

/-- Modelled from the spec: the meaning of reading a byte index against a
write history — the most recent update whose index equals the read index
supplies the value, and running off the chain (the null next pointer)
falls through to the array's initial contents (none here).  Index equality
is the code's own structural equality, compare == 0. -/
def UpdateChain.lookup : UpdateChain → Expr → Option Expr
  | .nil, _ => none
  | .node i v n, idx => if compareE i idx = 0 then some v else n.lookup idx

/-- Reading an index against an UpdateList's write history. -/
def UpdateList.readIndex (ul : UpdateList) (idx : Expr) : Option Expr :=
  ul.head.lookup idx

/-- ReadExpr::alloc (header): builds the node from the update list and the
index kid. -/
def ReadExpr.alloc (ul : UpdateList) (index : Expr) : Expr := .Read ul.root ul.head index

/-- Modelled from the spec: ReadExpr::create lives in the repository's
Expr.cpp, not under src/; the spec fixes no canonicalization for Read
beyond building the node from the update list and the index, so the model
builds the node. -/
def ReadExpr.create (ul : UpdateList) (index : Expr) : Expr := .Read ul.root ul.head index

/-- ConstantExpr::alloc(uint64_t v, Width w): wraps APInt(w, v), which
keeps only the low w bits of v. -/
def ConstantExpr.alloc (v : Nat) (w : Width) : Expr := .Const w (v % 2 ^ w)

/-- ConstantExpr::create: assert(v == bits64::truncateToNBits(v, w)) — the
caller must pass an already-truncated value (fatal otherwise) — then
alloc. -/
def ConstantExpr.create (v : Nat) (w : Width) : Option Expr :=
  if v % 2 ^ w = v then some (ConstantExpr.alloc v w) else none

/-- The signed (two's-complement) reading of a w-bit pattern. -/
def toSigned (w : Width) (v : Nat) : Int :=
  if v < 2 ^ (w - 1) then (v : Int) else (v : Int) - 2 ^ w

/-- The w-bit pattern of an integer, reduced modulo 2^w. -/
def ofSigned (w : Width) (i : Int) : Nat := (i.emod (2 ^ w)).toNat

/-- Truncated (toward-zero) integer quotient, the rounding of LLVM's
signed division. -/
def tquot (a b : Int) : Int :=
  (if (0 ≤ a) = (0 ≤ b) then 1 else -1) * ((a.natAbs / b.natAbs : Nat) : Int)

/-- Truncated integer remainder (sign follows the dividend). -/
def trem (a b : Int) : Int := a - b * tquot a b

/-- The width-1 ConstantExpr a comparison folds to. -/
def boolConst (b : Bool) : Expr := .Const 1 (if b then 1 else 0)

/-- Modelled from the spec (Constant Value Semantics): the ConstantExpr
operation set used by creation-time folding, bit-exact over w-bit
two's-complement patterns; comparisons yield a width-1 Boolean constant.
Division and remainder by the zero constant are undefined in this layer
(the spec leaves them for the caller to guard) and are modelled as fatal
(none) rather than guessed. -/
def foldBin : BinKind → Width → Nat → Nat → Option Expr
  | .add, w, v1, v2 => some (.Const w ((v1 + v2) % 2 ^ w))
  | .sub, w, v1, v2 => some (.Const w ((v1 + (2 ^ w - v2)) % 2 ^ w))
  | .mul, w, v1, v2 => some (.Const w ((v1 * v2) % 2 ^ w))
  | .udiv, w, v1, v2 => if v2 = 0 then none else some (.Const w (v1 / v2))
  | .sdiv, w, v1, v2 =>
      if v2 = 0 then none
      else some (.Const w (ofSigned w (tquot (toSigned w v1) (toSigned w v2))))
  | .urem, w, v1, v2 => if v2 = 0 then none else some (.Const w (v1 % v2))
  | .srem, w, v1, v2 =>
      if v2 = 0 then none
      else some (.Const w (ofSigned w (trem (toSigned w v1) (toSigned w v2))))
  | .and, w, v1, v2 => some (.Const w (v1 &&& v2))
  | .or, w, v1, v2 => some (.Const w (v1 ||| v2))
  | .xor, w, v1, v2 => some (.Const w (v1 ^^^ v2))
  | .shl, w, v1, v2 => some (.Const w ((v1 <<< v2) % 2 ^ w))
  | .lshr, w, v1, v2 => some (.Const w (v1 >>> v2))
  | .ashr, w, v1, v2 => some (.Const w (ofSigned w (Int.ediv (toSigned w v1) (2 ^ v2))))
  | .eq, _, v1, v2 => some (boolConst (v1 == v2))
  | .ne, _, v1, v2 => some (boolConst (v1 != v2))
  | .ult, _, v1, v2 => some (boolConst (decide (v1 < v2)))
  | .ule, _, v1, v2 => some (boolConst (decide (v1 ≤ v2)))
  | .ugt, _, v1, v2 => some (boolConst (decide (v2 < v1)))
  | .uge, _, v1, v2 => some (boolConst (decide (v2 ≤ v1)))
  | .slt, w, v1, v2 => some (boolConst (decide (toSigned w v1 < toSigned w v2)))
  | .sle, w, v1, v2 => some (boolConst (decide (toSigned w v1 ≤ toSigned w v2)))
  | .sgt, w, v1, v2 => some (boolConst (decide (toSigned w v2 < toSigned w v1)))
  | .sge, w, v1, v2 => some (boolConst (decide (toSigned w v2 ≤ toSigned w v1)))

/-- Canonical node construction for a binary kind (canonicalization
rule 3: for the commutative arithmetic/bitwise kinds a constant operand,
if any, goes to the left). -/
def mkBinNode (k : BinKind) (l r : Expr) : Expr :=
  if k.isCommutative && r.isConstant && !l.isConstant then .Binary k r l else .Binary k l r

/-- Modelled from the spec: the shared body of the macro-generated create
functions (Expr.cpp, not under src/): a width mismatch between the
operands is a fatal contract violation; two constant operands fold to a
single Constant (rule 1); otherwise the canonical node is built.  The
right-leaning re-association of operator chains (rule 4) concerns nodes
with non-constant operands only and is not modelled. -/
def createBin0 (k : BinKind) (l r : Expr) : Option Expr :=
  if l.getWidth ≠ r.getWidth then none
  else
    match l, r with
    | .Const _ vl, .Const wr vr => foldBin k wr vl vr
    | _, _ => some (mkBinNode k l r)

/-- Modelled from the spec: the create functions of the binary families
(Expr.cpp, not under src/).  Canonicalization rule 2 keeps the five
non-canonical comparison kinds out of created nodes: Ne(l, r) is
expressed as Eq(false, Eq(l, r)) (boolean negation, the == false form),
and Ugt/Uge/Sgt/Sge swap their operands into Ult/Ule/Slt/Sle; rule 3
expresses subtraction of a constant as addition of its negation. -/
def createBinary (k : BinKind) (l r : Expr) : Option Expr :=
  match k with
  | .ne =>
      match createBin0 .eq l r with
      | some inner => createBin0 .eq (.Const 1 0) inner
      | none => none
  | .ugt => createBin0 .ult r l
  | .uge => createBin0 .ule r l
  | .sgt => createBin0 .slt r l
  | .sge => createBin0 .sle r l
  | .sub =>
      match r with
      | .Const wr vr =>
          if l.isConstant then createBin0 .sub l r
          else createBin0 .add (.Const wr ((2 ^ wr - vr) % 2 ^ wr)) l
      | _ => createBin0 .sub l r
  | k => createBin0 k l r

/-- The alloc of the macro-generated BinaryExpr subclasses
(ARITHMETIC_EXPR_CLASS / COMPARISON_EXPR_CLASS in the header): exactly
new _class_kind Expr(l, r) plus hash caching — no canonicalization and no
folding happen on this path. -/
def BinaryAlloc (k : BinKind) (l r : Expr) : Expr := .Binary k l r

/-- ConcatExpr::alloc (header): builds the node; the ConcatExpr
constructor stores width = l->getWidth() + r->getWidth(). -/
def ConcatAlloc (l r : Expr) : Expr := .Concat l r

/-- Modelled from the spec: ConcatExpr::create (Expr.cpp, not under
src/): two constant operands fold into one constant with the left value
in the high bits (rule 1); otherwise the node is built.  Children may
have arbitrary widths. -/
def createConcat (l r : Expr) : Expr :=
  match l, r with
  | .Const wl vl, .Const wr vr => .Const (wl + wr) (vl * 2 ^ wr + vr)
  | _, _ => .Concat l r

/-- Modelled from the spec: ExtractExpr::create (Expr.cpp, not under
src/): assert(w > 0 && off + w <= kw) makes an out-of-range extract
fatal; a full-width extract returns the operand; a constant operand folds
bit-exactly (offset 0 is the least significant bit); otherwise the node
is built. -/
def createExtract (e : Expr) (off : Nat) (w : Width) : Option Expr :=
  if w = 0 || off + w > e.getWidth then none
  else if w = e.getWidth then some e
  else
    match e with
    | .Const _ v => some (.Const w ((v >>> off) % 2 ^ w))
    | _ => some (.Extract e off w)

/-- Modelled from the spec: ZExtExpr::create (Expr.cpp, not under src/):
an equal target width returns the operand unchanged, a smaller one
truncates via Extract, a constant folds by bit-exact zero extension, and
otherwise the cast node with the requested target width is built. -/
def createZExt (e : Expr) (w : Width) : Option Expr :=
  if w = e.getWidth then some e
  else if w < e.getWidth then createExtract e 0 w
  else
    match e with
    | .Const _ v => some (.Const w v)
    | _ => some (.ZExt e w)

/-- Modelled from the spec: SExtExpr::create (Expr.cpp, not under src/):
like ZExt but extending with the sign bit, bit-exactly. -/
def createSExt (e : Expr) (w : Width) : Option Expr :=
  if w = e.getWidth then some e
  else if w < e.getWidth then createExtract e 0 w
  else
    match e with
    | .Const ew v => some (.Const w (ofSigned w (toSigned ew v)))
    | _ => some (.SExt e w)

/-- Modelled from the spec: NotExpr::create (Expr.cpp, not under src/): a
constant operand folds to its bitwise complement (rule 1). -/
def createNot (e : Expr) : Expr :=
  match e with
  | .Const w v => .Const w ((v ^^^ (2 ^ w - 1)) % 2 ^ w)
  | _ => .Not e

/-- Modelled from the spec: NotOptimizedExpr::create (Expr.cpp, not under
src/): rule 1 folds a constant operand to the constant itself. -/
def createNotOptimized (e : Expr) : Expr :=
  match e with
  | .Const w v => .Const w v
  | _ => .NotOptimized e

/-- Modelled from the spec: SelectExpr::create (Expr.cpp, not under
src/): the condition must be Bool and the branches of equal width (fatal
otherwise, per isValidKidWidth and the width-mismatch failure
semantics); a constant condition selects the corresponding branch
(rule 1); otherwise the node is built. -/
def createSelect (c t f : Expr) : Option Expr :=
  if c.getWidth ≠ 1 || t.getWidth ≠ f.getWidth then none
  else
    match c with
    | .Const _ v => some (if v = 0 then f else t)
    | _ => some (.Select c t f)

/-- needsResultType(): false on Expr, overridden to true on CastExpr —
the target width must always be supplied to (re)build a cast node. -/
def needsResultType : KindT → Bool
  | .zext => true
  | .sext => true
  | _ => false

/-- Expr::rebuild per class: a fresh node of the same kind is created
from the given kids through the kind's create (cast nodes pass their
stored target width, ExtractExpr its stored offset and width, ReadExpr
its update list); on ConstantExpr the header's body is
assert(0 && "rebuild() on ConstantExpr"), a fatal contract violation,
modelled as none.  A kids array shorter than getNumKids() violates the
caller's contract (the C++ would read past the array) and is none as
well. -/
def Expr.rebuild : Expr → List Expr → Option Expr
  | .Const _ _, _ => none
  | .NotOptimized _, k0 :: _ => some (createNotOptimized k0)
  | .Read r c _, k0 :: _ => some (ReadExpr.create ⟨r, c⟩ k0)
  | .Select _ _ _, k0 :: k1 :: k2 :: _ => createSelect k0 k1 k2
  | .Concat _ _, k0 :: k1 :: _ => some (createConcat k0 k1)
  | .Extract _ o w, k0 :: _ => createExtract k0 o w
  | .ZExt _ w, k0 :: _ => createZExt k0 w
  | .SExt _ w, k0 :: _ => createSExt k0 w
  | .Not _, k0 :: _ => some (createNot k0)
  | .Binary k _ _, k0 :: k1 :: _ => createBinary k k0 k1
  | _, _ => none

/-- llvm::APInt::getZExtValue, the library call the method returns
through: defined only when the numeric value fits in 64 bits (its
internal assertion aborts otherwise). -/
def apIntGetZExtValue (v : Nat) : Option Nat := if v < 2 ^ 64 then some v else none

/-- ConstantExpr::getZExtValue(bits): assert(getWidth() <= bits && "Value
may be out of range!") — the assertion failure is modelled as none — then
value.getZExtValue().  bits defaults to 64 at call sites. -/
def ConstantExpr.getZExtValue (w : Width) (v : Nat) (bits : Nat) : Option Nat :=
  if w ≤ bits then apIntGetZExtValue v else none


theorem isConstant_shape {e : Expr} (h : e.isConstant = true) : ∃ w v, e = .Const w v := by
  cases e
  case Const w v => exact ⟨w, v, rfl⟩
  all_goals simp_all [Expr.isConstant]

theorem getKind_of_isConstant {e : Expr} (h : e.isConstant = true) :
    e.getKind = KindT.constant := by
  obtain ⟨w, v, rfl⟩ := isConstant_shape h
  rfl

theorem foldBin_isConstant {k : BinKind} {w v1 v2 : Nat} {e : Expr}
    (h : foldBin k w v1 v2 = some e) : e.isConstant = true := by
  cases k <;> simp only [foldBin, boolConst] at h <;> (try split_ifs at h) <;>
    (rw [← Option.some_inj.mp h]; rfl)

theorem mkBinNode_kind (k : BinKind) (l r : Expr) :
    (mkBinNode k l r).getKind = binKindT k := by
  unfold mkBinNode
  split <;> rfl

theorem createBin0_isConstant {k : BinKind} {wl vl wr vr : Nat} {e : Expr}
    (h : createBin0 k (.Const wl vl) (.Const wr vr) = some e) : e.isConstant = true := by
  unfold createBin0 at h
  split_ifs at h
  exact foldBin_isConstant h

theorem createBin0_kind {k : BinKind} {l r e : Expr} (h : createBin0 k l r = some e) :
    e.getKind = binKindT k ∨ e.getKind = KindT.constant := by
  unfold createBin0 at h
  split_ifs at h
  · split at h
    · exact Or.inr (getKind_of_isConstant (foldBin_isConstant h))
    · rw [← Option.some_inj.mp h]
      exact Or.inl (mkBinNode_kind _ _ _)

theorem createExtract_isConstant {w v o ww : Nat} {e : Expr}
    (h : createExtract (.Const w v) o ww = some e) : e.isConstant = true := by
  unfold createExtract at h
  split_ifs at h <;> (rw [← Option.some_inj.mp h]; rfl)

theorem createBinary_isConstant {k : BinKind} {wl vl wr vr : Nat} {e : Expr}
    (h : createBinary k (.Const wl vl) (.Const wr vr) = some e) : e.isConstant = true := by
  cases k
  case ne =>
    simp only [createBinary] at h
    rcases heq : createBin0 .eq (Expr.Const wl vl) (.Const wr vr) with _ | inner
    · rw [heq] at h
      exact absurd h (by simp)
    · rw [heq] at h
      obtain ⟨wi, vi, rfl⟩ := isConstant_shape (createBin0_isConstant heq)
      exact createBin0_isConstant h
  case sub =>
    simp only [createBinary, Expr.isConstant, if_true] at h
    exact createBin0_isConstant h
  all_goals (simp only [createBinary] at h; exact createBin0_isConstant h)


/-- C1 counterexample: AddExpr::alloc is one of the public constructor
paths of a non-Constant kind (the header's ARITHMETIC_EXPR_CLASS macro),
and applied to two ConstantExpr operands it builds an Add node both of
whose children are Constant: nothing constant-folds on the alloc path. -/
theorem C1_alloc_keeps_all_constant_kids :
    (BinaryAlloc .add (ConstantExpr.alloc 1 32) (ConstantExpr.alloc 2 32)).getKind
        ≠ KindT.constant
  ∧ (BinaryAlloc .add (ConstantExpr.alloc 1 32) (ConstantExpr.alloc 2 32)).getNumKids = 2
  ∧ (BinaryAlloc .add (ConstantExpr.alloc 1 32) (ConstantExpr.alloc 2 32)).getKid 0
        = some (.Const 32 1)
  ∧ (BinaryAlloc .add (ConstantExpr.alloc 1 32) (ConstantExpr.alloc 2 32)).getKid 1
        = some (.Const 32 2) := by
  refine ⟨by decide, rfl, ?_, ?_⟩ <;> decide

/-- C1 (amended): on the create paths the invariant holds at creation
time — for every non-Constant kind other than Read, a create whose
operands are all Constant folds to a single Constant node (whenever it
returns at all; division by a zero constant is fatal).  The claim as
stated fails on the alloc paths, which never fold (see the
counterexample), and Read's create cannot fold a constant index read
from a symbolic array. -/
theorem C1_create_folds_all_constant_operands :
    (∀ (k : BinKind) (wl vl wr vr : Nat) (e : Expr),
        createBinary k (.Const wl vl) (.Const wr vr) = some e → e.isConstant = true)
  ∧ (∀ w v : Nat, (createNotOptimized (.Const w v)).isConstant = true)
  ∧ (∀ (wc vc wt vt wf vf : Nat) (e : Expr),
        createSelect (.Const wc vc) (.Const wt vt) (.Const wf vf) = some e →
          e.isConstant = true)
  ∧ (∀ wl vl wr vr : Nat, (createConcat (.Const wl vl) (.Const wr vr)).isConstant = true)
  ∧ (∀ (w v o ww : Nat) (e : Expr),
        createExtract (.Const w v) o ww = some e → e.isConstant = true)
  ∧ (∀ (w v ww : Nat) (e : Expr), createZExt (.Const w v) ww = some e → e.isConstant = true)
  ∧ (∀ (w v ww : Nat) (e : Expr), createSExt (.Const w v) ww = some e → e.isConstant = true)
  ∧ (∀ w v : Nat, (createNot (.Const w v)).isConstant = true) := by
  refine ⟨fun k wl vl wr vr e h => createBinary_isConstant h, fun w v => rfl, ?_, fun wl vl wr vr => rfl, fun w v o ww e h => createExtract_isConstant h, ?_, ?_, fun w v => rfl⟩
  · intro wc vc wt vt wf vf e h
    unfold createSelect at h
    split_ifs at h
    rw [← Option.some_inj.mp h]
    split <;> rfl
  · intro w v ww e h
    unfold createZExt at h
    split_ifs at h <;>
      first
        | (rw [← Option.some_inj.mp h]; rfl)
        | exact createExtract_isConstant h
  · intro w v ww e h
    unfold createSExt at h
    split_ifs at h <;>
      first
        | (rw [← Option.some_inj.mp h]; rfl)
        | exact createExtract_isConstant h

/-- C1 witness: the hypothesis-bearing conjuncts at concrete all-constant
inputs, each discharged by evaluation. -/
theorem C1_create_folds_witness :
    (Expr.Const 32 3).isConstant = true
  ∧ (Expr.Const 8 5).isConstant = true
  ∧ (Expr.Const 4 11).isConstant = true
  ∧ (Expr.Const 16 5).isConstant = true
  ∧ (Expr.Const 16 65530).isConstant = true :=
  ⟨C1_create_folds_all_constant_operands.1 .add 32 1 32 2 (.Const 32 3) (by decide),
   C1_create_folds_all_constant_operands.2.2.1 1 1 8 5 8 6 (.Const 8 5) (by decide),
   C1_create_folds_all_constant_operands.2.2.2.2.1 8 171 0 4 (.Const 4 11) (by decide),
   C1_create_folds_all_constant_operands.2.2.2.2.2.1 8 5 16 (.Const 16 5) (by decide),
   C1_create_folds_all_constant_operands.2.2.2.2.2.2.1 8 250 16 (.Const 16 65530) (by decide)⟩

/-- C2 counterexample: ExtractExpr::getKid ignores its index argument and
returns the wrapped expression for every index, so the out-of-range
index 1 (getNumKids() is 1) yields the child, not the null sentinel. -/
theorem C2_extract_getKid_out_of_range :
    (Expr.Extract (.Const 8 0) 0 4).getNumKids = 1
  ∧ (Expr.Extract (.Const 8 0) 0 4).getKid 1 = some (.Const 8 0) := by
  exact ⟨rfl, rfl⟩

/-- C2 (amended): getKid with an index outside [0, getNumKids()) returns
the null sentinel for ConstantExpr, ReadExpr, SelectExpr, ConcatExpr,
the cast classes and the binary/comparison classes; but ExtractExpr,
NotExpr and NotOptimizedExpr never test the index and return their
single child for every index, in range or not. -/
theorem C2_getKid_sentinel_by_kind :
    (∀ (w v i : Nat), (Expr.Const w v).getKid i = none)
  ∧ (∀ (r : Arr) (c : UpdateChain) (x : Expr) (i : Nat),
        1 ≤ i → (Expr.Read r c x).getKid i = none)
  ∧ (∀ (c t f : Expr) (i : Nat), 3 ≤ i → (Expr.Select c t f).getKid i = none)
  ∧ (∀ (l r : Expr) (i : Nat), 2 ≤ i → (Expr.Concat l r).getKid i = none)
  ∧ (∀ (s : Expr) (w : Width) (i : Nat), 1 ≤ i → (Expr.ZExt s w).getKid i = none)
  ∧ (∀ (s : Expr) (w : Width) (i : Nat), 1 ≤ i → (Expr.SExt s w).getKid i = none)
  ∧ (∀ (k : BinKind) (l r : Expr) (i : Nat), 2 ≤ i → (Expr.Binary k l r).getKid i = none)
  ∧ (∀ (s : Expr) (i : Nat), (Expr.NotOptimized s).getKid i = some s)
  ∧ (∀ (e : Expr) (o : Nat) (w : Width) (i : Nat), (Expr.Extract e o w).getKid i = some e)
  ∧ (∀ (e : Expr) (i : Nat), (Expr.Not e).getKid i = some e) := by
  refine ⟨fun w v i => rfl, ?_, ?_, ?_, ?_, ?_, ?_, fun s i => rfl, fun e o w i => rfl,
    fun e i => rfl⟩
  · intro r c x i hi
    obtain ⟨n, rfl⟩ : ∃ n, i = n + 1 := ⟨i - 1, by omega⟩
    simp [Expr.getKid]
  · intro c t f i hi
    obtain ⟨n, rfl⟩ : ∃ n, i = n + 3 := ⟨i - 3, by omega⟩
    rfl
  · intro l r i hi
    obtain ⟨n, rfl⟩ : ∃ n, i = n + 2 := ⟨i - 2, by omega⟩
    rfl
  · intro s w i hi
    obtain ⟨n, rfl⟩ : ∃ n, i = n + 1 := ⟨i - 1, by omega⟩
    simp [Expr.getKid]
  · intro s w i hi
    obtain ⟨n, rfl⟩ : ∃ n, i = n + 1 := ⟨i - 1, by omega⟩
    simp [Expr.getKid]
  · intro k l r i hi
    obtain ⟨n, rfl⟩ : ∃ n, i = n + 2 := ⟨i - 2, by omega⟩
    rfl

/-- C2 witness: the sentinel conjuncts at concrete out-of-range
indices. -/
theorem C2_getKid_sentinel_witness :
    (Expr.Read ⟨"a", 1, []⟩ .nil (.Const 32 0)).getKid 5 = none
  ∧ (Expr.Select (.Const 1 1) (.Const 8 1) (.Const 8 2)).getKid 3 = none
  ∧ (Expr.Concat (.Const 8 1) (.Const 8 2)).getKid 2 = none
  ∧ (Expr.ZExt (.Const 8 1) 16).getKid 1 = none
  ∧ (Expr.SExt (.Const 8 1) 16).getKid 1 = none
  ∧ (Expr.Binary .add (.Const 8 1) (.Const 8 2)).getKid 7 = none :=
  ⟨C2_getKid_sentinel_by_kind.2.1 ⟨"a", 1, []⟩ .nil (.Const 32 0) 5 (by omega),
   C2_getKid_sentinel_by_kind.2.2.1 _ _ _ 3 (by omega),
   C2_getKid_sentinel_by_kind.2.2.2.1 _ _ 2 (by omega),
   C2_getKid_sentinel_by_kind.2.2.2.2.1 _ 16 1 (by omega),
   C2_getKid_sentinel_by_kind.2.2.2.2.2.1 _ 16 1 (by omega),
   C2_getKid_sentinel_by_kind.2.2.2.2.2.2.1 .add _ _ 7 (by omega)⟩

/-- C3: compare is zero exactly on structurally identical expressions
(same kind, width, contents and pairwise-equal children — structural
identity of the embedded DAG), and structurally identical expressions
have equal hashes.  The order itself compares kind, then width, then
kind-specific contents, then children, as the compareE definition
records. -/
theorem C3_compare_structural_identity :
    (∀ a b : Expr, compareE a b = 0 ↔ a = b)
  ∧ (∀ a b : Expr, compareE a b = 0 → hashE a = hashE b) :=
  ⟨compareE_eq_zero_iff, fun a b h => by rw [(compareE_eq_zero_iff a b).mp h]⟩

/-- C3 witness: the hash conjunct applied at a concrete pair, its
compare-zero hypothesis discharged through the equivalence itself. -/
theorem C3_compare_structural_witness :
    hashE (Expr.Binary .add (.Const 8 1) (.Not (.Const 8 2)))
      = hashE (Expr.Binary .add (.Const 8 1) (.Not (.Const 8 2))) :=
  C3_compare_structural_identity.2 _ _ ((C3_compare_structural_identity.1 _ _).mpr rfl)

/-- C4: extend publishes a new head node that links to the previous head
(the previous list value is unchanged — persistence is by construction in
the model, matching the spec's no-mutation contract); reading the
extended index against the new list yields the written value, and
reading some other index i against a list extended at j != i sees
exactly what the base list saw. -/
theorem C4_extend_is_persistent (L0 : UpdateList) (i v j w : Expr) (hij : i ≠ j) :
    L0.extend i v = ⟨L0.root, .node i v L0.head⟩
  ∧ (L0.extend i v).readIndex i = some v
  ∧ (L0.extend j w).readIndex i = L0.readIndex i := by
  refine ⟨rfl, ?_, ?_⟩
  · simp [UpdateList.extend, UpdateList.readIndex, UpdateChain.lookup,
      (compareE_eq_zero_iff i i).mpr rfl]
  · have hne : compareE j i ≠ 0 := fun h => hij ((compareE_eq_zero_iff j i).mp h).symm
    simp [UpdateList.extend, UpdateList.readIndex, UpdateChain.lookup, hne]

/-- C4 witness: a concrete base list extended at two different constant
indices. -/
theorem C4_extend_witness :
    ((⟨⟨"buf", 4, []⟩, .nil⟩ : UpdateList).extend (.Const 32 0) (.Const 8 7)).readIndex
        (.Const 32 0) = some (.Const 8 7)
  ∧ ((⟨⟨"buf", 4, []⟩, .nil⟩ : UpdateList).extend (.Const 32 1) (.Const 8 9)).readIndex
        (.Const 32 0)
      = (⟨⟨"buf", 4, []⟩, .nil⟩ : UpdateList).readIndex (.Const 32 0) := by
  have h := C4_extend_is_persistent ⟨⟨"buf", 4, []⟩, .nil⟩ (.Const 32 0) (.Const 8 7)
    (.Const 32 1) (.Const 8 9) (by decide)
  exact ⟨h.2.1, h.2.2⟩

/-- C5 counterexample: NeExpr::alloc (COMPARISON_EXPR_CLASS in the
header) is public and builds a node whose getKind() is Ne, so the
construction interface taken as a whole can produce the five
non-canonical comparison kinds. -/
theorem C5_alloc_builds_ne :
    (BinaryAlloc .ne (.Const 8 1) (.Const 8 2)).getKind = KindT.ne := rfl

/-- C5 (amended): the create interface — the canonical-form constructors —
never yields the five kinds: NeExpr::create expresses the condition via
negation (Eq against false), and Ugt/Uge/Sgt/Sge create swap operands
into the complementary Ult/Ule/Slt/Sle; only the raw alloc paths can
build those kinds (see the counterexample). -/
theorem C5_create_never_builds_noncanonical :
    (∀ l r e : Expr, createBinary .ne l r = some e →
        e.getKind = KindT.eq ∨ e.getKind = KindT.constant)
  ∧ (∀ l r e : Expr, createBinary .ugt l r = some e →
        e.getKind = KindT.ult ∨ e.getKind = KindT.constant)
  ∧ (∀ l r e : Expr, createBinary .uge l r = some e →
        e.getKind = KindT.ule ∨ e.getKind = KindT.constant)
  ∧ (∀ l r e : Expr, createBinary .sgt l r = some e →
        e.getKind = KindT.slt ∨ e.getKind = KindT.constant)
  ∧ (∀ l r e : Expr, createBinary .sge l r = some e →
        e.getKind = KindT.sle ∨ e.getKind = KindT.constant) := by
  refine ⟨?_, ?_, ?_, ?_, ?_⟩
  · intro l r e h
    simp only [createBinary] at h
    rcases heq : createBin0 .eq l r with _ | inner
    · rw [heq] at h
      exact absurd h (by simp)
    · rw [heq] at h
      exact createBin0_kind h
  · intro l r e h
    simp only [createBinary] at h
    exact createBin0_kind h
  · intro l r e h
    simp only [createBinary] at h
    exact createBin0_kind h
  · intro l r e h
    simp only [createBinary] at h
    exact createBin0_kind h
  · intro l r e h
    simp only [createBinary] at h
    exact createBin0_kind h

/-- C5 witness: each rewritten create applied at concrete operands. -/
theorem C5_create_canonical_witness :
    ((Expr.Binary .eq (.Const 1 0) (.Binary .eq (.Not (.Const 8 1)) (.Const 8 3))).getKind
        = KindT.eq
      ∨ (Expr.Binary .eq (.Const 1 0)
          (.Binary .eq (.Not (.Const 8 1)) (.Const 8 3))).getKind = KindT.constant)
  ∧ ((Expr.Binary .ult (.Const 8 3) (.Not (.Const 8 1))).getKind = KindT.ult
      ∨ (Expr.Binary .ult (.Const 8 3) (.Not (.Const 8 1))).getKind = KindT.constant)
  ∧ ((Expr.Binary .ule (.Const 8 3) (.Not (.Const 8 1))).getKind = KindT.ule
      ∨ (Expr.Binary .ule (.Const 8 3) (.Not (.Const 8 1))).getKind = KindT.constant)
  ∧ ((Expr.Binary .slt (.Const 8 3) (.Not (.Const 8 1))).getKind = KindT.slt
      ∨ (Expr.Binary .slt (.Const 8 3) (.Not (.Const 8 1))).getKind = KindT.constant)
  ∧ ((Expr.Binary .sle (.Const 8 3) (.Not (.Const 8 1))).getKind = KindT.sle
      ∨ (Expr.Binary .sle (.Const 8 3) (.Not (.Const 8 1))).getKind = KindT.constant) :=
  ⟨C5_create_never_builds_noncanonical.1 (.Not (.Const 8 1)) (.Const 8 3) _ (by decide),
   C5_create_never_builds_noncanonical.2.1 (.Not (.Const 8 1)) (.Const 8 3) _ (by decide),
   C5_create_never_builds_noncanonical.2.2.1 (.Not (.Const 8 1)) (.Const 8 3) _ (by decide),
   C5_create_never_builds_noncanonical.2.2.2.1 (.Not (.Const 8 1)) (.Const 8 3) _ (by decide),
   C5_create_never_builds_noncanonical.2.2.2.2 (.Not (.Const 8 1)) (.Const 8 3) _ (by decide)⟩

/-- C6: rebuild on a terminal ConstantExpr is
assert(0 && "rebuild() on ConstantExpr") — a fatal contract violation;
it never returns a usable result, whatever kids array is supplied. -/
theorem C6_rebuild_on_constant_is_fatal (w v : Nat) (kids : List Expr) :
    (Expr.Const w v).rebuild kids = none := by
  cases kids <;> rfl

/-- C7: comparison nodes (every kind in [Eq, Sge]) fix getWidth() to Bool
(1) whatever their operands' widths; the cast classes report exactly the
target width stored at construction, override needsResultType() to true,
and their rebuild calls create with the stored target width. -/
theorem C7_cmp_bool_and_cast_width :
    (∀ (k : BinKind) (l r : Expr), k.isCmp = true → (Expr.Binary k l r).getWidth = 1)
  ∧ (∀ (s : Expr) (w : Width), (Expr.ZExt s w).getWidth = w ∧ (Expr.SExt s w).getWidth = w)
  ∧ (needsResultType KindT.zext = true ∧ needsResultType KindT.sext = true)
  ∧ (∀ (s k0 : Expr) (w : Width) (rest : List Expr),
        (Expr.ZExt s w).rebuild (k0 :: rest) = createZExt k0 w
      ∧ (Expr.SExt s w).rebuild (k0 :: rest) = createSExt k0 w) := by
  refine ⟨?_, fun s w => ⟨rfl, rfl⟩, ⟨rfl, rfl⟩, fun s k0 w rest => ⟨rfl, rfl⟩⟩
  intro k l r hk
  simp [Expr.getWidth, hk]

/-- C7 witness: a comparison node over 8-bit operands still has width 1. -/
theorem C7_cmp_bool_witness :
    (Expr.Binary .eq (.Const 8 1) (.Const 8 2)).getWidth = 1 :=
  C7_cmp_bool_and_cast_width.1 .eq (.Const 8 1) (.Const 8 2) rfl

/-- C8: an Array built with constant initial values has exactly size of
them — a mismatched count fails the construction-time assertion — and
every Array reports the fixed 32-bit index (domain) width and 8-bit
element (range) width. -/
theorem C8_array_count_and_widths :
    (∀ (n : String) (s : Nat) (vals : List (Width × Nat)) (a : Arr),
        Arr.make n s vals = some a → vals ≠ [] → vals.length = s)
  ∧ (∀ (n : String) (s : Nat) (vals : List (Width × Nat)),
        vals ≠ [] → vals.length ≠ s → Arr.make n s vals = none)
  ∧ (∀ a : Arr, a.getDomain = 32 ∧ a.getRange = 8) := by
  refine ⟨?_, ?_, fun a => ⟨rfl, rfl⟩⟩
  · intro n s vals a h hne
    unfold Arr.make at h
    split_ifs at h with hc
    · simp only [Bool.and_eq_true, Bool.or_eq_true, beq_iff_eq] at hc
      rcases hc.1 with h1 | h1
      · exact absurd (List.isEmpty_iff.mp h1) hne
      · exact h1
  · intro n s vals hne hlen
    unfold Arr.make
    rw [if_neg]
    intro hcond
    simp only [Bool.and_eq_true, Bool.or_eq_true, beq_iff_eq] at hcond
    rcases hcond.1 with h1 | h1
    · exact hne (List.isEmpty_iff.mp h1)
    · exact hlen h1

/-- C8 witness: a two-byte constant array makes it through construction
with matching count; a mismatched count is fatal. -/
theorem C8_array_witness :
    ([((8 : Width), 1), (8, 2)] : List (Width × Nat)).length = 2
  ∧ Arr.make "buf" 3 [(8, 1)] = none :=
  ⟨C8_array_count_and_widths.1 "buf" 2 [(8, 1), (8, 2)] ⟨"buf", 2, [(8, 1), (8, 2)]⟩
      (by decide) (by decide),
   C8_array_count_and_widths.2.1 "buf" 3 [(8, 1)] (by decide) (by decide)⟩

/-- C9: a ConcatExpr built from children l and r has width
getWidth(l) + getWidth(r), fixed at construction, with no constraint on
the children's widths: via alloc, and via create even when two constants
fold. -/
theorem C9_concat_width_is_sum (l r : Expr) :
    (ConcatAlloc l r).getWidth = l.getWidth + r.getWidth
  ∧ (createConcat l r).getWidth = l.getWidth + r.getWidth := by
  constructor
  · rfl
  · cases l <;> cases r <;> rfl

/-- C10 counterexample: with bits = 80 the claimed precondition
getWidth() <= bits holds for the 80-bit constant 2^70, yet getZExtValue
cannot return it as a 64-bit unsigned integer — APInt::getZExtValue's
own assertion aborts (the value exceeds 64 bits) instead of the claimed
return. -/
theorem C10_getZExtValue_counterexample :
    (80 : Nat) ≤ 80
  ∧ (2 ^ 70 : Nat) < 2 ^ 80
  ∧ ConstantExpr.getZExtValue 80 (2 ^ 70) 80 = none := by
  refine ⟨le_refl 80, by norm_num, ?_⟩
  unfold ConstantExpr.getZExtValue apIntGetZExtValue
  rw [if_pos (le_refl 80), if_neg (by norm_num)]

/-- C10 (amended): getZExtValue returns the constant's value zero
extended to 64 bits under the precondition getWidth() <= bits provided
the value also fits in 64 bits — which is automatic for a well-formed
constant whenever bits <= 64, the default — and a violated width
precondition is an assertion failure (none), never a silent
truncation. -/
theorem C10_getZExtValue_contract :
    (∀ w v bits : Nat, v < 2 ^ 64 → w ≤ bits →
        ConstantExpr.getZExtValue w v bits = some v)
  ∧ (∀ w v bits : Nat, v < 2 ^ w → w ≤ bits → bits ≤ 64 →
        ConstantExpr.getZExtValue w v bits = some v)
  ∧ (∀ w v bits : Nat, bits < w → ConstantExpr.getZExtValue w v bits = none) := by
  refine ⟨?_, ?_, ?_⟩
  · intro w v bits hv hw
    unfold ConstantExpr.getZExtValue apIntGetZExtValue
    rw [if_pos hw, if_pos hv]
  · intro w v bits hv hw hb
    have hv64 : v < 2 ^ 64 :=
      lt_of_lt_of_le hv (Nat.pow_le_pow_right (by norm_num) (le_trans hw hb))
    unfold ConstantExpr.getZExtValue apIntGetZExtValue
    rw [if_pos hw, if_pos hv64]
  · intro w v bits hb
    have hno : ¬ w ≤ bits := by omega
    unfold ConstantExpr.getZExtValue
    rw [if_neg hno]

/-- C10 witness: the default-bits call on a well-formed byte constant,
and an assertion failure on a width violating the precondition. -/
theorem C10_getZExtValue_witness :
    ConstantExpr.getZExtValue 8 255 64 = some 255
  ∧ ConstantExpr.getZExtValue 16 1 8 = none :=
  ⟨C10_getZExtValue_contract.2.1 8 255 64 (by norm_num) (by norm_num) (by norm_num),
   C10_getZExtValue_contract.2.2 16 1 8 (by norm_num)⟩

end GkleeExpr
